import Mathlib

/-!
Verification of the agent repository (orchestration loops, tool dispatch,
code-execution sandbox, shell session manager, file editor).

Shallow embedding conventions:
* Python dicts used as string-keyed tables are embedded either as association
  lists (when the code iterates over items, e.g. the scope-diff computation of
  `CodeExecutor.execute`) or as functions `String → Option _` (when only keyed
  lookup/update is performed, e.g. the shell session table).
* Python object identity (`is`) is modelled by an object id `oid` carried in
  every runtime value; Python equality (`==`) compares the `data` payload.
* Exceptions are modelled as `Except PyExc _` values; a `try/except` block
  becomes a `match` on the `Except`.
* JSON result strings (the shell and editor tools wrap results in
  `json.dumps({...})`) are embedded as structured records carrying the same
  `status` / `message` fields.
* Code fragments given to `exec` are embedded as state transformers on the
  scope, returning the mutated scope, captured stdout and an optional
  exception — mirroring that `exec` mutates `globals_locals` in place and that
  partial mutations survive an exception.
-/

/-- A Python runtime value: `oid` models object identity (`is`), `data` models
the payload compared by `==`. -/
structure Val where
  oid : Nat
  data : Int
deriving DecidableEq, Repr

/-- A Python exception: its type name and message. -/
structure PyExc where
  typeName : String
  msg : String
deriving DecidableEq, Repr

/-- An execution scope (`globals_locals` in `CodeExecutor`): a dict embedded
as an association list in insertion order, as Python dicts preserve it. -/
abbrev Scope := List (String × Val)

/-- Dict lookup on a scope (first matching key). -/
def Scope.find : Scope → String → Option Val
  | [], _ => none
  | kv :: rest, k => if kv.1 = k then some kv.2 else Scope.find rest k

/-- Dict assignment `d[k] = v`: replaces the value in place if the key exists,
otherwise appends the new entry (Python dict insertion-order semantics). -/
def Scope.insert (s : Scope) (k : String) (v : Val) : Scope :=
  if (s.find k).isSome then
    s.map (fun kv => if kv.1 = k then (k, v) else kv)
  else
    s ++ [(k, v)]

/-- Dict `d.update(new)`: fold `insert` over the new entries. This embeds
`StateManager.update_globals`. -/
def Scope.updateWith (s new : Scope) : Scope :=
  new.foldl (fun acc kv => acc.insert kv.1 kv.2) s

/-- Python `v == w` where `w` is `globals_before.get('__builtins__')`
(an `Option`): comparison with a missing entry (`None`) is `False`. -/
def pyEqOpt (v : Val) (w : Option Val) : Bool :=
  match w with
  | some u => v.data == u.data
  | none => false

/-- Key of the interpreter's builtin namespace entry. -/
def builtinsKey : String := "__builtins__"

/-- Python `s.startswith(pre)`: `pre`'s characters are a prefix of `s`'s.
(Computes by kernel reduction, unlike `String.startsWith`.) -/
def pyStartsWith (s pre : String) : Bool :=
  pre.data.isPrefixOf s.data

/-- The dict comprehension of `CodeExecutor.execute`:
`{k: v for k, v in self.globals_locals.items() if k not in globals_before or
globals_before[k] is not v}` — entries that are new or whose object identity
changed. -/
def updatedGlobalsRaw (globalsBefore after : Scope) : Scope :=
  after.filter (fun kv =>
    match globalsBefore.find kv.1 with
    | none => true
    | some w => w.oid != kv.2.oid)

/-- The full delta computation of `CodeExecutor.execute`, including the
builtins clean-up: `if '__builtins__' in updated_globals and
updated_globals['__builtins__'] == globals_before.get('__builtins__'):
del updated_globals['__builtins__']`. (`del` on a dict is key removal, which
on a unique-key association list is the filter below.) -/
def scopeDelta (globalsBefore after : Scope) : Scope :=
  let u := updatedGlobalsRaw globalsBefore after
  match u.find builtinsKey with
  | some v =>
      if pyEqOpt v (globalsBefore.find builtinsKey) then
        u.filter (fun kv => kv.1 != builtinsKey)
      else u
  | none => u

/-- A code fragment handed to `exec`: a state transformer producing the
mutated scope, the stdout captured by `redirect_stdout`, and an optional
uncaught exception. Partial mutations survive the exception, as with the
in-place `exec(compiled_code, self.globals_locals)`. -/
abbrev Frag := Scope → Scope × String × Option PyExc

/-- Result record of `CodeExecutor.execute`:
`{"stdout": ..., "error": ..., "updated_globals": ...}`. -/
structure ExecResult where
  stdout : String
  error : Option String
  updated_globals : Scope

/-- `CodeExecutor.execute`: snapshot the scope (`globals_before`), run the
fragment, format a caught exception as `f"{type(e).__name__}: {e}"`, and
compute `updated_globals` as the identity diff with the builtins exclusion.
Returns the mutated scope (the executor's persistent `globals_locals`)
together with the result record. -/
def CodeExecutor.execute (globalsLocals : Scope) (code : Frag) :
    Scope × ExecResult :=
  let globalsBefore := globalsLocals
  let out := code globalsLocals
  let errorMessage := out.2.2.map (fun e => e.typeName ++ ": " ++ e.msg)
  (out.1, ⟨out.2.1, errorMessage, scopeDelta globalsBefore out.1⟩)

/-- The CPython interned small-integer object `5`: every evaluation of the
literal `5` yields this same object (same identity). -/
def intFive : Val := ⟨5, 5⟩

/-- The fragment `x = 5`: binds `x` to the interned integer object `5`,
prints nothing, raises nothing. -/
def fragAssignX5 : Frag :=
  fun s => (s.insert "x" intFive, "", none)

/-- The fragment `print(x)`: prints the value of `x` followed by a newline,
or raises `NameError` when `x` is unbound (in which case stdout is empty). -/
def fragPrintX : Frag :=
  fun s =>
    match s.find "x" with
    | some v => (s, toString v.data ++ "\n", none)
    | none => (s, "", some ⟨"NameError", "name 'x' is not defined"⟩)

/-!
## The CLI orchestration loop of `src/agents.py`

`StateManager` + `ToolManager` + `Agent.run`. The LLM provider is an oracle:
a function from the current message history to an optional response
(`None` models a failed `generate_response`). Tool-use blocks carry the tool
name as a string — dispatch by name happens in `ToolManager.execute_tool` —
and a typed argument payload standing for the `input` dict.
-/

/-- The argument payload of a tool-use block (the `input` dict): either a code
fragment (for `execute_python`'s `code` argument), a plain string argument
(`plan_markdown`, `findings_markdown`, `result`, `query`), or an ill-shaped
payload whose keyword expansion raises `TypeError`. -/
inductive TInput where
  | inCode (code : Frag)
  | inStr (s : String)
  | inBad

/-- A content block of a provider response or history message. -/
inductive CBlock where
  | text (s : String)
  | toolUse (tid : String) (name : String) (input : TInput)
  | toolResult (tid : String) (content : String) (isError : Bool)

/-- One history entry (`{"role": ..., "content": [...]}`). The initial user
task string is stored as a single text block. -/
structure HMessage where
  role : String
  content : List CBlock

/-- A provider response: `content` blocks (`None` content models an empty
response) and the stop reason. -/
structure LLMResponse where
  content : Option (List CBlock)
  stopReason : String

/-- The provider oracle: `LLMInteraction.generate_response`, `None` meaning
the API call failed. -/
abbrev LLMOracle := List HMessage → Option LLMResponse

/-- A handler for a user-supplied (custom) tool, such as `search`: it sees
only its declared arguments and may raise. The environment maps custom tool
names to handlers (the non-built-in part of `_tool_implementations`). -/
structure AgentEnv where
  customTools : String → Option (TInput → Except PyExc String)

/-- The mutable state of one task: `StateManager` fields plus the
`CodeExecutor`'s persistent scope. -/
structure AgentState where
  history : List HMessage
  plan : String
  findings : String
  executionGlobals : Scope
  executorScope : Scope
  isDone : Bool
  finalAnswer : Option String

/-- What a tool implementation returns to the loop: a plain value
(stringified for the conversation) or the `execute_python` result dict. -/
inductive ResultVal where
  | strv (s : String)
  | execRes (stdout : String) (error : Option String)

/-- `StateManager.set_done`. -/
def StateManager.set_done (st : AgentState) (answer : String) : AgentState :=
  { st with isDone := true, finalAnswer := some answer }

/-- `StateManager.add_tool_result`: appends a user message holding a single
tool-result block correlated by `tool_use_id`. -/
def StateManager.add_tool_result (st : AgentState) (tid : String)
    (content : String) (isError : Bool) : AgentState :=
  { st with history := st.history ++ [⟨"user", [.toolResult tid content isError]⟩] }

/-- `StateManager.add_assistant_message`: appends the assistant's blocks,
skipped when the block list is empty. -/
def StateManager.add_assistant_message (st : AgentState)
    (blocks : List CBlock) : AgentState :=
  if blocks.isEmpty then st
  else { st with history := st.history ++ [⟨"assistant", blocks⟩] }

/-- `execute_python_impl`: run the code through the executor, merge a
non-empty `updated_globals` into the state manager's globals, and return the
`{"stdout", "error"}` dict. -/
def execute_python_impl (st : AgentState) (code : Frag) :
    AgentState × ResultVal :=
  let out := CodeExecutor.execute st.executorScope code
  let st₁ := { st with executorScope := out.1 }
  let st₂ :=
    if out.2.updated_globals.isEmpty then st₁
    else { st₁ with
      executionGlobals := st₁.executionGlobals.updateWith out.2.updated_globals }
  (st₂, .execRes out.2.stdout out.2.error)

/-- `update_plan_impl`. -/
def update_plan_impl (st : AgentState) (planMarkdown : String) :
    AgentState × ResultVal :=
  ({ st with plan := planMarkdown }, .strv "Plan updated successfully.")

/-- `record_findings_impl`. -/
def record_findings_impl (st : AgentState) (findingsMarkdown : String) :
    AgentState × ResultVal :=
  ({ st with findings := findingsMarkdown }, .strv "Findings recorded successfully.")

/-- `final_answer_impl`: flips the termination flag, records the result and
returns it. -/
def final_answer_impl (st : AgentState) (result : String) :
    AgentState × ResultVal :=
  (StateManager.set_done st result, .strv result)

/-- The error string built in `ToolManager.execute_tool`'s `except` clause:
`f"Error executing tool '{tool_name}': {type(e).__name__}: {e}"`. -/
def toolExcMsg (toolName : String) (e : PyExc) : String :=
  "Error executing tool '" ++ toolName ++ "': " ++ e.typeName ++ ": " ++ e.msg

/-- The caught `TypeError` raised by `tool_function(..., **tool_args)` when
the argument dict does not match the implementation's signature. -/
def typeErrorResult (toolName : String) : ResultVal :=
  .strv (toolExcMsg toolName ⟨"TypeError", "unexpected or missing arguments"⟩)

/-- `ToolManager.execute_tool`: dispatch by name over `_tool_implementations`
(the four built-ins with injected state, then the custom tools), an unknown
name yielding `f"Error: Tool '{tool_name}' not found."`; any exception raised
by the implementation is caught and converted to an error string. -/
def ToolManager.execute_tool (env : AgentEnv) (st : AgentState)
    (toolName : String) (input : TInput) : AgentState × ResultVal :=
  if toolName = "execute_python" then
    match input with
    | .inCode code => execute_python_impl st code
    | _ => (st, typeErrorResult toolName)
  else if toolName = "update_plan" then
    match input with
    | .inStr s => update_plan_impl st s
    | _ => (st, typeErrorResult toolName)
  else if toolName = "record_findings" then
    match input with
    | .inStr s => record_findings_impl st s
    | _ => (st, typeErrorResult toolName)
  else if toolName = "final_answer" then
    match input with
    | .inStr s => final_answer_impl st s
    | _ => (st, typeErrorResult toolName)
  else
    match env.customTools toolName with
    | some handler =>
        match handler input with
        | .ok s => (st, .strv s)
        | .error e => (st, .strv (toolExcMsg toolName e))
    | none => (st, .strv ("Error: Tool '" ++ toolName ++ "' not found."))

/-- Rendering of an `execute_python` result dict for the history
(`json.dumps(result, indent=2)` in `add_tool_result`; the exact JSON layout is
immaterial to every claim, only that it is some string). -/
def renderExecRes (stdout : String) (error : Option String) : String :=
  "\x7b \"stdout\": \"" ++ stdout ++ "\", \"error\": "
    ++ (match error with
        | some e => "\"" ++ e ++ "\""
        | none => "null") ++ " \x7d"

/-- The error classification of `Agent.run` (lines 614–622 of `agents.py`):
a string result lower-casing to an `error:` prefix is an error; a dict result
with a non-null `error` field is an error, its content replaced by
`f"Error during execution: {...}"`. Returns `(is_error, content_for_llm)`. -/
def classifyResult (res : ResultVal) : Bool × String :=
  match res with
  | .strv s => (pyStartsWith s.toLower "error:", s)
  | .execRes stdout error =>
      match error with
      | some e => (true, "Error during execution: " ++ e)
      | none => (false, renderExecRes stdout none)

/-- Processing of one response block inside `Agent.run`'s for-loop: text is
only printed; a tool-use block is executed and its correlated result appended
to history before the next block. -/
def Agent.processBlock (env : AgentEnv) (st : AgentState) (b : CBlock) :
    AgentState :=
  match b with
  | .text _ => st
  | .toolResult _ _ _ => st
  | .toolUse tid toolName input =>
      let out := ToolManager.execute_tool env st toolName input
      let cls := classifyResult out.2
      StateManager.add_tool_result out.1 tid cls.2 cls.1

/-- Sequential, in-order processing of all blocks of one assistant turn. -/
def Agent.processBlocks (env : AgentEnv) (st : AgentState)
    (blocks : List CBlock) : AgentState :=
  blocks.foldl (Agent.processBlock env) st

/-- `Agent.run`'s while-loop, by remaining iterations
(`max_iterations - iterations`). Returns the final state together with the
number of provider calls issued. A `None` response or `None` content breaks
out of the loop after that (counted) provider call. -/
def Agent.runLoop (env : AgentEnv) (oracle : LLMOracle) :
    Nat → AgentState → AgentState × Nat
  | 0, st => (st, 0)
  | fuel + 1, st =>
      if st.isDone then (st, 0)
      else
        match oracle st.history with
        | none => (st, 1)
        | some resp =>
            match resp.content with
            | none => (st, 1)
            | some blocks =>
                let st₁ := StateManager.add_assistant_message st blocks
                let st₂ := Agent.processBlocks env st₁ blocks
                let rest := Agent.runLoop env oracle fuel st₂
                (rest.1, rest.2 + 1)

/-- Fresh task state (`StateManager.__init__` plus the executor scope set to
the prepared initial globals). -/
def initAgentState (task : String) (initialGlobals : Scope) : AgentState :=
  ⟨[⟨"user", [.text task]⟩], "", "", initialGlobals, initialGlobals, false, none⟩

/-- `Agent.run`: the loop with the hard-coded `max_iterations = 15`. -/
def Agent.run (env : AgentEnv) (oracle : LLMOracle) (task : String)
    (initialGlobals : Scope) : AgentState × Nat :=
  Agent.runLoop env oracle 15 (initAgentState task initialGlobals)

/-- The value a single block hands to `set_done`, if any: a `final_answer`
tool-use block with a well-shaped string argument. -/
def blockFinalAnswer (b : CBlock) : Option String :=
  match b with
  | .toolUse _ n (.inStr v) => if n = "final_answer" then some v else none
  | _ => none

/-- The value carried by the last `final_answer` invocation among a turn's
blocks (only a well-shaped string argument reaches `set_done`). -/
def lastFinalAnswer : List CBlock → Option String
  | [] => none
  | b :: bs =>
      match lastFinalAnswer bs with
      | some v => some v
      | none => blockFinalAnswer b

/-!
## The tool dispatch engine of `src/agent/tools/registry.py`

`Tool` and `ToolRegistry`. A handler's return value is an arbitrary result
dict; the engine's own error results are dicts with an `"error"` key, embedded
as the `errorRes` constructor. Handlers may raise (`Except.error`).
-/

/-- A result dict flowing out of `Tool.execute` / `ToolRegistry.execute_tool`:
either an arbitrary payload or a dict carrying an `"error"` message. -/
inductive RegResult where
  | value (payload : String)
  | errorRes (msg : String)

/-- A registry tool: name, description, parameter schema (opaque here) and an
optional handler, which receives only its declared arguments (a stringly
payload in this embedding) and may raise. -/
structure RTool where
  name : String
  description : String
  handler : Option (String → Except PyExc RegResult)

/-- `Tool.execute`: no handler yields an error dict; a raising handler is
caught and converted to `{"error": f"Error executing tool '{self.name}':
{str(e)}"}` — note the message carries `str(e)` only, not the exception's
type name. -/
def RTool.execute (t : RTool) (args : String) : RegResult :=
  match t.handler with
  | none => .errorRes ("No handler implemented for tool '" ++ t.name ++ "'")
  | some h =>
      match h args with
      | .ok r => r
      | .error e => .errorRes ("Error executing tool '" ++ t.name ++ "': " ++ e.msg)

/-- The registry: `self.tools` is a name-keyed dict
(`register_tool` overwrites any previous entry with the same name). -/
structure ToolRegistry where
  tools : String → Option RTool

/-- `ToolRegistry.register_tool`. -/
def ToolRegistry.register_tool (reg : ToolRegistry) (t : RTool) : ToolRegistry :=
  ⟨fun n => if n = t.name then some t else reg.tools n⟩

/-- `ToolRegistry.get_tool`. -/
def ToolRegistry.get_tool (reg : ToolRegistry) (name : String) : Option RTool :=
  reg.tools name

/-- `ToolRegistry.execute_tool`: an unknown name yields
`{"error": f"Tool '{name}' not found in registry"}`, otherwise the tool is
executed (never letting an exception escape). -/
def ToolRegistry.execute_tool (reg : ToolRegistry) (name : String)
    (args : String) : RegResult :=
  match reg.get_tool name with
  | none => .errorRes ("Tool '" ++ name ++ "' not found in registry")
  | some t => t.execute args

/-!
## The process loop of `src/agent/agent.py`

`Agent.process_loop` drives `llm.generate` (an oracle over the rendered prompt
and the chosen system prompt) and the free-text tool-call extractor
`_extract_tool_calls` (a pure function of the response text, taken as a
parameter since it is regex-based). The loop runs at most
`max_tool_turns = max_steps - 1` turns, plus one forced summary call.
-/

/-- One conversation entry of `process_loop` (`user` / `assistant` /
`function` roles; a function message holds a tool's result dict). -/
inductive PMsg where
  | user (s : String)
  | assistant (s : String)
  | function (name : String) (content : RegResult)

/-- The outcome of `llm.generate`: `{"status": "error", "message": ...}` or
`{"status": "success", "response": ...}`. -/
inductive GenOut where
  | genError (msg : String)
  | genOk (response : String)

/-- The provider oracle of the process loop: prompt and system prompt to
generation outcome. -/
abbrev GenOracle := String → String → GenOut

/-- A tool call recovered from free text: name and argument payload. -/
structure PToolCall where
  name : String
  args : String

/-- The degraded-mode parser `_extract_tool_calls`, abstracted as a pure
function from response text to tentative invocations. -/
abbrev Extractor := String → List PToolCall

/-- `_create_prompt_from_history`: renders the conversation into one prompt
string (tool dicts with a `result` key are not distinguished from other
payloads in this embedding; the rendering only feeds the oracle). -/
def renderHistory (conv : List PMsg) : String :=
  conv.foldl
    (fun acc m =>
      acc ++
        match m with
        | .user s => "User: " ++ s ++ "\n\n"
        | .assistant s => "Assistant: " ++ s ++ "\n\n"
        | .function n (.value s) => "Tool (" ++ n ++ "): " ++ s ++ "\n\n"
        | .function n (.errorRes s) => "Tool (" ++ n ++ ") Error: " ++ s ++ "\n\n")
    ""

/-- Sequential execution of one turn's extracted tool calls: each result is
appended to the conversation as a `function` message
(`self.tool_registry.execute_tool` never raises, so the `except` arm of the
source is unreachable). -/
def runToolCalls (reg : ToolRegistry) (conv : List PMsg)
    (calls : List PToolCall) : List PMsg :=
  calls.foldl
    (fun acc c => acc ++ [.function c.name (reg.execute_tool c.name c.args)])
    conv

/-- How `process_loop`'s while-loop ended. -/
inductive LoopExit where
  | errored (msg : String)
  | finished
  | maxTurns (finalTurnFlag : Bool)

/-- The while-loop of `Agent.process_loop`, by remaining turns
(`max_tool_turns - turn_count`). Returns the conversation, the exit kind and
the number of provider calls made inside the loop. `finalTurn` and `toolUsed`
are the loop's two flags. -/
def processLoopGo (oracle : GenOracle) (extract : Extractor)
    (reg : ToolRegistry) (sysPrompt sumPrompt : String) :
    Nat → Bool → Bool → List PMsg → List PMsg × LoopExit × Nat
  | 0, finalTurn, _, conv => (conv, .maxTurns finalTurn, 0)
  | fuel + 1, finalTurn, toolUsed, conv =>
      match oracle (renderHistory conv) (if finalTurn then sumPrompt else sysPrompt) with
      | .genError m => (conv, .errored m, 1)
      | .genOk resp =>
          let conv₁ := conv ++ [.assistant resp]
          if finalTurn then (conv₁, .finished, 1)
          else
            match extract resp with
            | [] =>
                if toolUsed then
                  let rest := processLoopGo oracle extract reg sysPrompt sumPrompt
                    fuel true true conv₁
                  (rest.1, rest.2.1, rest.2.2 + 1)
                else (conv₁, .finished, 1)
            | c :: cs =>
                let conv₂ := runToolCalls reg conv₁ (c :: cs)
                let rest := processLoopGo oracle extract reg sysPrompt sumPrompt
                  fuel finalTurn true conv₂
                (rest.1, rest.2.1, rest.2.2 + 1)

/-- `Agent.process_loop`: runs the while-loop for `max_tool_turns =
max_steps - 1` turns and, when the turn ceiling was reached without the final
summarization flag set, forces one more summary-prompt provider call. Returns
the conversation and the total number of provider calls. -/
def Agent.process_loop (oracle : GenOracle) (extract : Extractor)
    (reg : ToolRegistry) (sysPrompt sumPrompt : String) (maxSteps : Nat)
    (inputText : String) : List PMsg × Nat :=
  let maxToolTurns := maxSteps - 1
  let out := processLoopGo oracle extract reg sysPrompt sumPrompt
    maxToolTurns false false [.user inputText]
  match out.2.1 with
  | .maxTurns false =>
      match oracle (renderHistory out.1) sumPrompt with
      | .genOk resp => (out.1 ++ [.assistant resp], out.2.2 + 1)
      | .genError _ => (out.1, out.2.2 + 1)
  | _ => (out.1, out.2.2)

/-!
## The shell session manager of `src/shell_tool.py`

Paths are component lists with an absoluteness flag; `str(path)` is
`renderPath`. The filesystem world supplies `Path.resolve` and the set of
existing directories; OS side effects (`subprocess.Popen`, `terminate`/`kill`)
are recorded as an event trace so that "no process was spawned" is a statement
about the trace. Session processes carry a `poll` field
(`None` while alive, the exit code once terminated).
-/

/-- A filesystem path as handed to `Path(...)`. -/
structure PyPath where
  absolute : Bool
  comps : List String
deriving DecidableEq, Repr

/-- `str(path)`. -/
def renderPath (p : PyPath) : String :=
  (if p.absolute then "/" else "") ++ String.intercalate "/" p.comps

/-- The filesystem/OS world: `resolve` models `Path.resolve()` (symlink and
`..` resolution), `dirs` the extant directories (by resolved components),
`now` the clock read by `time.time()` and `newPid` the pid the next spawn
would receive. -/
structure ShellWorld where
  resolve : PyPath → PyPath
  dirs : List (List String)
  now : Nat
  newPid : Nat

/-- `path.exists()` (which follows symlinks, hence resolves). Only
directories exist in this world — the only kind `shell_exec` probes. -/
def ShellWorld.pathExists (w : ShellWorld) (p : PyPath) : Bool :=
  (w.resolve p).comps ∈ w.dirs

/-- `path.is_dir()`. -/
def ShellWorld.pathIsDir (w : ShellWorld) (p : PyPath) : Bool :=
  (w.resolve p).comps ∈ w.dirs

/-- True path containment: `p` lies inside `root` when `root`'s components
are a prefix of `p`'s components (both resolved). This is what "inside the
configured root directory" denotes. -/
def insideRoot (root p : PyPath) : Bool :=
  root.comps.isPrefixOf p.comps

/-- `ShellTool.validate_path`: resolve, then the string-prefix test
`str(abs_path).startswith(str(self.root_path))`, then existence, then
directoriness; the first failing check raises `ValueError` (returned here as
the error message). -/
def ShellTool.validate_path (w : ShellWorld) (root execDir : PyPath) :
    Option String :=
  let absPath := w.resolve execDir
  if ¬ pyStartsWith (renderPath absPath) (renderPath root) then
    some ("Path " ++ renderPath execDir ++ " is outside the root directory "
      ++ renderPath root)
  else if ¬ w.pathExists execDir then
    some ("Directory " ++ renderPath execDir ++ " does not exist")
  else if ¬ w.pathIsDir execDir then
    some ("Path " ++ renderPath execDir ++ " is not a directory")
  else none

/-- One shell session's record in `self._shell_sessions`. -/
structure Session where
  pid : Nat
  command : String
  execDir : String
  output : List String
  running : Bool
  poll : Option Int
  startTime : Nat

/-- The session table. -/
structure ShellState where
  sessions : String → Option Session

/-- An OS side effect of the manager. -/
inductive SEvent where
  | spawn (pid : Nat)
  | killSig (pid : Nat)
deriving DecidableEq, Repr

/-- A shell tool result (the JSON payload's `status`/`message`, plus the pid
reported by `shell_exec`). -/
structure SResult where
  status : String
  message : String
  pid : Option Nat
deriving DecidableEq, Repr

/-- `ShellTool.shell_kill_process`: an unknown session id yields an error
result; otherwise a still-alive process is terminated (graceful `terminate`,
then `kill` after the grace period — in either case it is dead afterwards,
modelled by `poll := some (-15)`), the session's `running` flag is cleared and
success is reported. Total — no exception escapes. -/
def ShellTool.shell_kill_process (st : ShellState) (id : String) :
    ShellState × SResult × List SEvent :=
  match st.sessions id with
  | none => (st, ⟨"error", "Session " ++ id ++ " does not exist", none⟩, [])
  | some s =>
      let killed :=
        match s.poll with
        | none => ({ s with poll := some (-15) }, [SEvent.killSig s.pid])
        | some _ => (s, [])
      let s₂ := { killed.1 with running := false }
      (⟨fun k => if k = id then some s₂ else st.sessions k⟩,
        ⟨"success", "Process in session " ++ id ++ " terminated", none⟩,
        killed.2)

/-- `ShellTool.shell_exec`: reject a non-absolute `exec_dir`, validate the
path (all before any side effect), kill any live previous occupant of the id,
then spawn the child process and store the fresh session record. -/
def ShellTool.shell_exec (w : ShellWorld) (root : PyPath) (st : ShellState)
    (id : String) (execDir : PyPath) (command : String) :
    ShellState × SResult × List SEvent :=
  if ¬ execDir.absolute then
    (st, ⟨"error", "exec_dir must be an absolute path: " ++ renderPath execDir,
      none⟩, [])
  else
    match ShellTool.validate_path w root execDir with
    | some msg => (st, ⟨"error", msg, none⟩, [])
    | none =>
        let cleared :=
          if (st.sessions id).isSome then
            let k := ShellTool.shell_kill_process st id
            (k.1, k.2.2)
          else (st, [])
        let sess : Session :=
          ⟨w.newPid, command, renderPath execDir, [], true, none, w.now⟩
        (⟨fun k => if k = id then some sess else cleared.1.sessions k⟩,
          ⟨"success", "Command started in session " ++ id, some w.newPid⟩,
          cleared.2 ++ [SEvent.spawn w.newPid])

/-!
### The timed model of `shell_wait`

`shell_wait` interleaves `process.poll()`, a blocking
`process.stdout.readline()` and `time.sleep(0.1)`. Time is discrete in ticks
of 0.1 s, with the wait starting at tick 0. A process is a trace: the tick at
which it exits (when its stdout reaches EOF) and the ticks at which output
lines become readable. `readline` on a live, silent process blocks until the
next line or EOF — this is where wall-clock time passes. The `seconds`
argument is converted to ticks by the caller of the model
(`seconds = 0` is `0` ticks, the default `60` is `600` ticks).
-/

/-- A child process as a trace: exit tick, exit code, and timestamped output
lines (in order). -/
structure WProc where
  exitAt : Nat
  exitCode : Int
  lines : List (Nat × String)

/-- `process.poll()` at tick `t`. -/
def WProc.pollAt (p : WProc) (t : Nat) : Option Int :=
  if p.exitAt ≤ t then some p.exitCode else none

/-- Blocking `readline` at tick `now` with `idx` lines already consumed:
returns the line (or `none` at EOF) and the tick at which the call returns. -/
def WProc.readlineAt (p : WProc) (idx now : Nat) : Option String × Nat :=
  match p.lines.get? idx with
  | some tl => (some tl.2, max now tl.1)
  | none => (none, max now p.exitAt)

/-- Output still unread after `idx` lines: the final drain
`for line in process.stdout`. -/
def WProc.drainFrom (p : WProc) (idx : Nat) : List String :=
  (p.lines.drop idx).map (fun tl => tl.2)

/-- What `shell_wait` reports (the session-existence error arm aside):
`status`, the exit code on success, the lines read, and the tick at which the
call returns. -/
structure WaitOut where
  status : String
  exitCode : Option Int
  outLines : List String
  endTime : Nat
deriving DecidableEq, Repr

/-- The `while process.poll() is None` loop of `shell_wait`: read a line
(blocking), record it, return `timeout` when the elapsed time exceeds the
deadline, otherwise sleep one tick and re-poll; once `poll` reports exit,
drain the remaining output and report success with the exit code. `fuel`
bounds the iterations; `none` means fuel ran out (never happens with
`fuel ≥ exitAt`, proved below). -/
def shellWaitGo (p : WProc) (timeoutTicks : Nat) :
    Nat → Nat → Nat → List String → Option WaitOut
  | 0, now, idx, acc =>
      match p.pollAt now with
      | some c => some ⟨"success", some c, acc ++ p.drainFrom idx, now⟩
      | none => none
  | fuel + 1, now, idx, acc =>
      match p.pollAt now with
      | some c => some ⟨"success", some c, acc ++ p.drainFrom idx, now⟩
      | none =>
          match p.readlineAt idx now with
          | (lineRead, retTime) =>
              let acc₁ := match lineRead with
                | some s => acc ++ [s]
                | none => acc
              let idx₁ := match lineRead with
                | some _ => idx + 1
                | none => idx
              if timeoutTicks < retTime then
                some ⟨"timeout", none, acc₁, retTime⟩
              else shellWaitGo p timeoutTicks fuel (retTime + 1) idx₁ acc₁

/-- `ShellTool.shell_wait` for an existing session, at process level: the
loop started at tick 0 with empty accumulated output. -/
def ShellTool.shell_wait (p : WProc) (timeoutTicks fuel : Nat) :
    Option WaitOut :=
  shellWaitGo p timeoutTicks fuel 0 0 []

/-!
## The file editor of `src/editor_tool.py`

Files live in a path-keyed content map; `_file_history` is the defaultdict of
per-path undo stacks (most recent content at the head, matching Python's
append/pop at the list end). Paths are plain strings, already resolved
(`Path.resolve` is the identity on them — no symlinks in this world), with
`normalize_path` prefixing the root for relative input.
-/

/-- Scanner for Python `str.count(sub)` with a nonempty needle: counts
non-overlapping occurrences from the left, skipping past each match. The
fuel argument (initially the hay length, which bounds the number of steps
since every step strictly shortens the hay) makes the recursion structural. -/
def countOccAux (needle : List Char) : Nat → List Char → Nat
  | 0, _ => 0
  | fuel + 1, hay =>
      match hay with
      | [] => 0
      | _ :: rest =>
          if needle.isPrefixOf hay then
            1 + countOccAux needle fuel (hay.drop needle.length)
          else countOccAux needle fuel rest

/-- Python `str.count(sub)`: non-overlapping occurrences scanned from the
left; an empty needle counts `len + 1`. -/
def countOcc (needle hay : List Char) : Nat :=
  if needle = [] then hay.length + 1
  else countOccAux needle hay.length hay

/-- Scanner for Python `str.replace(old, new)` with a nonempty needle, fueled
like `countOccAux`. -/
def pyReplaceAux (needle repl : List Char) : Nat → List Char → List Char
  | 0, hay => hay
  | fuel + 1, hay =>
      match hay with
      | [] => []
      | c :: rest =>
          if needle.isPrefixOf hay then
            repl ++ pyReplaceAux needle repl fuel (hay.drop needle.length)
          else c :: pyReplaceAux needle repl fuel rest

/-- Python `str.replace(old, new)` (all non-overlapping occurrences; an empty
needle interleaves the replacement around every character). -/
def pyReplace (needle repl hay : List Char) : List Char :=
  if needle = [] then repl ++ hay.flatMap (fun c => c :: repl)
  else pyReplaceAux needle repl hay.length hay

/-- The editor's state: root directory string, file contents by path,
directories, and the per-path undo history. -/
structure EditorState where
  root : String
  files : String → Option String
  dirs : String → Bool
  history : String → List String

/-- An editor result (the `status`/`message` of the JSON payload). -/
structure EdResult where
  status : String
  message : String
deriving DecidableEq, Repr

/-- `EditorTool.normalize_path`: absolute paths pass through, relative paths
are joined under the root. -/
def EditorTool.normalize_path (root path : String) : String :=
  if pyStartsWith path "/" then path else root ++ "/" ++ path

/-- `EditorTool.validate_path` for a command and an already-normalized path:
the string-prefix root test, absoluteness, existence (except for `create`),
non-existence for `create`, and the directory restriction. Returns the raised
`ValueError` message, if any (the `create` parent-directory creation is
omitted: no claim concerns `create`). -/
def EditorTool.validate_path (st : EditorState) (command path : String) :
    Option String :=
  if ¬ pyStartsWith path st.root then
    some ("Path " ++ path ++ " is outside the root directory " ++ st.root)
  else if ¬ pyStartsWith path "/" then
    some ("Path " ++ path ++ " is not absolute. Did you mean "
      ++ st.root ++ "/" ++ path ++ "?")
  else if ¬ ((st.files path).isSome ∨ st.dirs path) ∧ command ≠ "create" then
    some ("Path " ++ path ++ " does not exist")
  else if ((st.files path).isSome ∨ st.dirs path) ∧ command = "create" then
    some ("File already exists at " ++ path)
  else if st.dirs path ∧ command ≠ "view" then
    some ("Path " ++ path ++ " is a directory and only view command is allowed")
  else none

/-- `EditorTool.str_replace`: validate, read, count occurrences; zero or
multiple occurrences yield an error; exactly one pushes the old content on the
undo history and writes the replaced content. (A validation `ValueError` is
the error result the `__call__` wrapper would produce.) -/
def EditorTool.str_replace (st : EditorState) (path oldStr newStr : String) :
    EditorState × EdResult :=
  let p := EditorTool.normalize_path st.root path
  match EditorTool.validate_path st "str_replace" p with
  | some m => (st, ⟨"error", m⟩)
  | none =>
      match st.files p with
      | none => (st, ⟨"error", "Error reading " ++ p⟩)
      | some content =>
          let occurrences := countOcc oldStr.data content.data
          if occurrences = 0 then
            (st, ⟨"error", "String '" ++ oldStr ++ "' not found in file"⟩)
          else if 1 < occurrences then
            (st, ⟨"error", "Multiple occurrences (" ++ toString occurrences
              ++ ") of '" ++ oldStr ++ "' found"⟩)
          else
            let st₁ := { st with
              history := fun k =>
                if k = p then content :: st.history k else st.history k }
            let newContent :=
              String.mk (pyReplace oldStr.data newStr.data content.data)
            ({ st₁ with
                files := fun k => if k = p then some newContent else st₁.files k },
              ⟨"success",
                "Replaced '" ++ oldStr ++ "' with '" ++ newStr ++ "'"⟩)

/-- `EditorTool.undo_edit`: validate, pop the most recent saved content for
the path and write it back; an empty history yields an error result. -/
def EditorTool.undo_edit (st : EditorState) (path : String) :
    EditorState × EdResult :=
  let p := EditorTool.normalize_path st.root path
  match EditorTool.validate_path st "undo_edit" p with
  | some m => (st, ⟨"error", m⟩)
  | none =>
      match st.history p with
      | [] => (st, ⟨"error", "No edit history available"⟩)
      | prev :: rest =>
          ({ st with
              files := fun k => if k = p then some prev else st.files k,
              history := fun k => if k = p then rest else st.history k },
            ⟨"success", "Last edit undone successfully"⟩)

/-!
## Statement vocabulary and concrete instances used by the theorems
-/

/-- The filter condition of the dict comprehension in `CodeExecutor.execute`,
as a proposition: the key is new, or the bound object's identity changed. -/
def entryNewOrChanged (globalsBefore : Scope) (k : String) (v : Val) : Prop :=
  match globalsBefore.find k with
  | none => True
  | some w => w.oid ≠ v.oid

/-- What a `kill` call may report, per the spec reading: success, or that no
live process existed for the id (the unknown-session message). -/
def killReportsOk (id : String) (r : SResult) : Prop :=
  r.status = "success" ∨ r.message = "Session " ++ id ++ " does not exist"

/-- The session's `running` flag is cleared, when the session exists. -/
def sessionRunningCleared : Option Session → Prop
  | none => True
  | some s => s.running = false

/-- An empty session table. -/
def emptySessions : ShellState := ⟨fun _ => none⟩

def escWorld : ShellWorld :=
  ⟨fun p => p, [["tmp", "root"], ["tmp", "rootevil"]], 0, 101⟩

def escRoot : PyPath := ⟨true, ["tmp", "root"]⟩

def escDir : PyPath := ⟨true, ["tmp", "rootevil"]⟩

def cexOracle : LLMOracle :=
  fun h =>
    if h.length = 1 then
      some ⟨some [.toolUse "t1" "final_answer" (.inStr "a"),
                  .toolUse "t2" "final_answer" (.inStr "b")], "tool_use"⟩
    else none

def emptyEnv : AgentEnv := ⟨fun _ => none⟩

/-- Oracle whose first response is a single well-formed `final_answer("42")`
invocation. -/
def witOracle : LLMOracle :=
  fun h =>
    if h.length = 1 then
      some ⟨some [.toolUse "t1" "final_answer" (.inStr "42")], "tool_use"⟩
    else none

/-- A registry tool whose handler always raises `ValueError("boom")`. -/
def raisingTool : RTool :=
  ⟨"t", "raises", some (fun _ => .error ⟨"ValueError", "boom"⟩)⟩

/-- A registry holding only `raisingTool`. -/
def raisingReg : ToolRegistry :=
  ⟨fun n => if n = "t" then some raisingTool else none⟩

/-- A custom-tool environment whose tool `mytool` always raises
`ValueError("boom")`. -/
def raisingEnv : AgentEnv :=
  ⟨fun n => if n = "mytool" then some (fun _ => .error ⟨"ValueError", "boom"⟩)
    else none⟩

/-- A concrete editor state: root `/r`, one file `/r/a.txt`, no directories,
empty histories. -/
def edState : EditorState :=
  ⟨"/r", fun p => if p = "/r/a.txt" then some "hello world" else none,
    fun _ => false, fun _ => []⟩

/-- A concrete process trace for the `shell_wait` witness: exits at tick 30
with code 7, one output line at tick 10. -/
def witProc : WProc := ⟨30, 7, [(10, "hi")]⟩

/-- The silent five-second sleeper (50 ticks of 0.1 s, no output), exit
code 0 — the process of the spec's `wait(id, seconds=0)` scenario. -/
def sleepFive : WProc := ⟨50, 0, []⟩
/-!
# Theorems

Shared helper lemmas first, then one theorem per claim, with counterexamples
and witnesses where required.
-/

theorem Scope.find_map_replace (k : String) (v : Val) :
    ∀ s : Scope, (s.find k).isSome = true →
      Scope.find (s.map (fun kv => if kv.1 = k then (k, v) else kv)) k = some v
  | [], h => by simp [Scope.find] at h
  | kv :: rest, h => by
      by_cases hk : kv.1 = k
      · simp [Scope.find, hk]
      · have h1 : (Scope.find rest k).isSome = true := by
          simpa [Scope.find, hk] using h
        simpa [Scope.find, hk] using Scope.find_map_replace k v rest h1

theorem Scope.find_append_self (k : String) (v : Val) :
    ∀ s : Scope, (s.find k).isSome = false →
      Scope.find (s ++ [(k, v)]) k = some v
  | [], _ => by simp [Scope.find]
  | kv :: rest, h => by
      by_cases hk : kv.1 = k
      · simp [Scope.find, hk] at h
      · have h1 : (Scope.find rest k).isSome = false := by
          simpa [Scope.find, hk] using h
        simpa [Scope.find, hk] using Scope.find_append_self k v rest h1

theorem Scope.find_insert_self (s : Scope) (k : String) (v : Val) :
    (Scope.insert s k v).find k = some v := by
  unfold Scope.insert
  by_cases h : (s.find k).isSome = true
  · simpa [h] using Scope.find_map_replace k v s h
  · have hf : (s.find k).isSome = false := by
      simpa using h
    simpa [hf] using Scope.find_append_self k v s hf

theorem Scope.mem_of_find_eq_some :
    ∀ (s : Scope) (k : String) (v : Val), s.find k = some v → (k, v) ∈ s
  | kv :: rest, k, v, h => by
      by_cases hk : kv.1 = k
      · have hv : kv.2 = v := by
          simpa [Scope.find, hk] using h
        have : (k, v) = kv := by
          cases kv
          simp_all
        simp [this]
      · have h1 : Scope.find rest k = some v := by
          simpa [Scope.find, hk] using h
        exact List.mem_cons_of_mem _ (Scope.mem_of_find_eq_some rest k v h1)

theorem Scope.find_isSome_of_mem :
    ∀ (s : Scope) (k : String) (v : Val), (k, v) ∈ s → (s.find k).isSome = true
  | kv :: rest, k, v, h => by
      by_cases hk : kv.1 = k
      · simp [Scope.find, hk]
      · rcases List.mem_cons.mp h with h1 | h1
        · exact absurd (congrArg Prod.fst h1.symm) hk
        · simpa [Scope.find, hk] using Scope.find_isSome_of_mem rest k v h1

theorem Scope.find_eq_of_mem_nodup :
    ∀ (s : Scope) (k : String) (v : Val),
      (s.map Prod.fst).Nodup → (k, v) ∈ s → s.find k = some v
  | kv :: rest, k, v, hnd, hm => by
      rcases List.mem_cons.mp hm with h1 | h1
      · have hk : kv.1 = k := (congrArg Prod.fst h1).symm
        have hv : kv.2 = v := (congrArg Prod.snd h1).symm
        simp [Scope.find, hk, hv]
      · rw [List.map_cons] at hnd
        have hnd1 := List.nodup_cons.mp hnd
        have hk : kv.1 ≠ k := by
          intro hkk
          exact hnd1.1 (hkk ▸ (List.mem_map_of_mem Prod.fst h1))
        simpa [Scope.find, hk] using
          Scope.find_eq_of_mem_nodup rest k v hnd1.2 h1

theorem Scope.mem_insert_self (s : Scope) (k : String) (v : Val) :
    (k, v) ∈ Scope.insert s k v :=
  Scope.mem_of_find_eq_some _ _ _ (Scope.find_insert_self s k v)

theorem mem_updatedGlobalsRaw (globalsBefore after : Scope) (k : String)
    (v : Val) :
    (k, v) ∈ updatedGlobalsRaw globalsBefore after ↔
      ((k, v) ∈ after ∧
        (match globalsBefore.find k with
         | none => true
         | some w => w.oid != v.oid) = true) := by
  unfold updatedGlobalsRaw
  rw [List.mem_filter]

theorem updatedGlobalsRaw_keys_nodup (globalsBefore after : Scope)
    (hnd : (after.map Prod.fst).Nodup) :
    ((updatedGlobalsRaw globalsBefore after).map Prod.fst).Nodup :=
  hnd.sublist ((List.filter_sublist after).map Prod.fst)

theorem entryNewOrChanged_iff (globalsBefore : Scope) (k : String) (v : Val) :
    entryNewOrChanged globalsBefore k v ↔
      (match globalsBefore.find k with
       | none => true
       | some w => w.oid != v.oid) = true := by
  unfold entryNewOrChanged
  cases globalsBefore.find k with
  | none => simp
  | some w => simp

theorem mem_scopeDelta (globalsBefore after : Scope) (k : String) (v : Val)
    (hnd : (after.map Prod.fst).Nodup) :
    (k, v) ∈ scopeDelta globalsBefore after ↔
      ((k, v) ∈ updatedGlobalsRaw globalsBefore after ∧
        ¬ (k = builtinsKey ∧
            pyEqOpt v (globalsBefore.find builtinsKey) = true)) := by
  have hndu := updatedGlobalsRaw_keys_nodup globalsBefore after hnd
  unfold scopeDelta
  dsimp only
  cases hb : (updatedGlobalsRaw globalsBefore after).find builtinsKey with
  | none =>
      dsimp only
      constructor
      · intro hm
        refine ⟨hm, ?_⟩
        rintro ⟨rfl, -⟩
        have hs := Scope.find_isSome_of_mem _ _ _ hm
        rw [hb] at hs
        simp at hs
      · exact fun h => h.1
  | some w =>
      dsimp only
      by_cases hpe : pyEqOpt w (globalsBefore.find builtinsKey) = true
      · rw [if_pos hpe]
        rw [List.mem_filter]
        constructor
        · rintro ⟨hm, hne⟩
          refine ⟨hm, ?_⟩
          rintro ⟨rfl, -⟩
          simp at hne
        · rintro ⟨hm, hcond⟩
          refine ⟨hm, ?_⟩
          by_cases hk : k = builtinsKey
          · exfalso
            subst hk
            have hf := Scope.find_eq_of_mem_nodup _ _ _ hndu hm
            rw [hb] at hf
            injection hf with hv
            exact hcond ⟨rfl, hv ▸ hpe⟩
          · simpa using hk
      · rw [if_neg hpe]
        constructor
        · intro hm
          refine ⟨hm, ?_⟩
          rintro ⟨rfl, hc⟩
          have hf := Scope.find_eq_of_mem_nodup _ _ _ hndu hm
          rw [hb] at hf
          injection hf with hv
          exact hpe (hv ▸ hc)
        · exact fun h => h.1

/-- C9: for every pair of scope snapshots taken by `CodeExecutor.execute`
(keys of a Python dict are unique, hence the `Nodup` hypothesis), the computed
`scope_delta` holds exactly the entries of the post-run scope that are new or
whose object identity changed, minus the `__builtins__` entry when that entry
is unchanged (`==`-equal to its pre-run value). -/
theorem c9_scope_delta_exact (globalsBefore after : Scope)
    (hnd : (after.map Prod.fst).Nodup) (k : String) (v : Val) :
    (k, v) ∈ scopeDelta globalsBefore after ↔
      ((k, v) ∈ after ∧ entryNewOrChanged globalsBefore k v ∧
        ¬ (k = builtinsKey ∧
            pyEqOpt v (globalsBefore.find builtinsKey) = true)) := by
  rw [mem_scopeDelta globalsBefore after k v hnd, mem_updatedGlobalsRaw,
    entryNewOrChanged_iff]
  tauto

/-- Witness for `c9_scope_delta_exact` at a concrete input. -/
theorem c9_scope_delta_exact_witness :
    ((([("x", intFive)] : Scope).map Prod.fst).Nodup) ∧
      ((("x", intFive) ∈ scopeDelta [] [("x", intFive)]) ↔
        (("x", intFive) ∈ ([("x", intFive)] : Scope) ∧
          entryNewOrChanged [] "x" intFive ∧
          ¬ ("x" = builtinsKey ∧
              pyEqOpt intFive (Scope.find [] builtinsKey) = true))) :=
  ⟨by simp, c9_scope_delta_exact [] [("x", intFive)] (by simp) "x" intFive⟩

/-- C2 counterexample: in a task whose scope already binds `x` to the interned
integer object `5` (e.g. because an earlier call already ran `x = 5`), the
first call of the pair re-binds `x = 5` without changing the object's
identity, so its scope delta is empty — it does not contain the entry
`x: 5` the claim demands — even though the second call still prints `5`. -/
theorem c2_counterexample :
    (CodeExecutor.execute [("x", intFive)] fragAssignX5).2.updated_globals = []
      ∧ (CodeExecutor.execute
          (CodeExecutor.execute [("x", intFive)] fragAssignX5).1
          fragPrintX).2.stdout = "5\n" :=
  ⟨rfl, rfl⟩

/-- C2 (amended): for every prior scope, running `x = 5` and then `print(x)`
through `CodeExecutor.execute` prints `5` in the second call (the executor's
scope persists in place across calls); and the first call's scope delta
contains the entry `x: 5` provided `x` was not already bound to the interned
integer object `5` before the call. -/
theorem c2_scope_roundtrip (s : Scope) :
    (CodeExecutor.execute (CodeExecutor.execute s fragAssignX5).1
        fragPrintX).2.stdout = "5\n"
      ∧ ((s.find "x").all (fun w => w.oid != intFive.oid) = true →
          ("x", intFive) ∈
            (CodeExecutor.execute s fragAssignX5).2.updated_globals) := by
  constructor
  · have hx := Scope.find_insert_self s "x" intFive
    simp only [CodeExecutor.execute, fragAssignX5, fragPrintX]
    rw [hx]
    rfl
  · intro h
    have hmem : ("x", intFive) ∈ Scope.insert s "x" intFive :=
      Scope.mem_insert_self s "x" intFive
    have hu : ("x", intFive) ∈ updatedGlobalsRaw s (Scope.insert s "x" intFive) := by
      rw [mem_updatedGlobalsRaw]
      refine ⟨hmem, ?_⟩
      cases hf : s.find "x" with
      | none => rfl
      | some w =>
          rw [hf] at h
          simpa using h
    have hres : ("x", intFive) ∈ scopeDelta s (Scope.insert s "x" intFive) := by
      unfold scopeDelta
      dsimp only
      cases hb : (updatedGlobalsRaw s (Scope.insert s "x" intFive)).find
          builtinsKey with
      | none => exact hu
      | some w =>
          dsimp only
          by_cases hpe : pyEqOpt w (s.find builtinsKey) = true
          · rw [if_pos hpe, List.mem_filter]
            exact ⟨hu, by decide⟩
          · rw [if_neg hpe]
            exact hu
    simpa [CodeExecutor.execute, fragAssignX5] using hres

/-- Witness for `c2_scope_roundtrip` at the empty scope. -/
theorem c2_scope_roundtrip_witness :
    ((Scope.find [] "x").all (fun w => w.oid != intFive.oid) = true) ∧
      ((CodeExecutor.execute (CodeExecutor.execute [] fragAssignX5).1
          fragPrintX).2.stdout = "5\n"
        ∧ ("x", intFive) ∈ (CodeExecutor.execute [] fragAssignX5).2.updated_globals) :=
  ⟨rfl, (c2_scope_roundtrip []).1, (c2_scope_roundtrip []).2 rfl⟩

/-- C4: dispatching an unregistered tool name, in any registry state, returns
the error result naming that exact name — the name occurs verbatim in the
message — and the dispatch function is total, so no exception escapes the
engine. -/
theorem c4_unknown_tool_error (reg : ToolRegistry) (name args : String)
    (h : reg.tools name = none) :
    reg.execute_tool name args
        = .errorRes ("Tool '" ++ name ++ "' not found in registry")
      ∧ name.data <:+: ("Tool '" ++ name ++ "' not found in registry").data := by
  constructor
  · unfold ToolRegistry.execute_tool ToolRegistry.get_tool
    rw [h]
  · refine ⟨"Tool '".data, "' not found in registry".data, ?_⟩
    simp [String.data_append]

/-- Witness for `c4_unknown_tool_error`: the empty registry and the name
`magic_wand`. -/
theorem c4_unknown_tool_error_witness :
    ((ToolRegistry.mk fun _ => none).tools "magic_wand" = none) ∧
      ((ToolRegistry.mk fun _ => none).execute_tool "magic_wand" "args"
          = .errorRes ("Tool '" ++ "magic_wand" ++ "' not found in registry")
        ∧ ("magic_wand" : String).data <:+:
            ("Tool '" ++ "magic_wand" ++ "' not found in registry").data) :=
  ⟨rfl, c4_unknown_tool_error ⟨fun _ => none⟩ "magic_wand" "args" rfl⟩

/-- C5 counterexample: `registry.py`'s `Tool.execute` converts a handler
raising `ValueError("boom")` into the error result
`Error executing tool 't': boom`, which does not carry the exception's type
name `ValueError` anywhere — refuting "carries both the exception's type and
its message" for this dispatch engine. -/
theorem c5_counterexample :
    ToolRegistry.execute_tool raisingReg "t" "args"
        = .errorRes "Error executing tool 't': boom"
      ∧ ¬ ("ValueError".data <:+: ("Error executing tool 't': boom").data) := by
  exact ⟨rfl, by decide⟩

/-- C5 (amended): a handler exception never propagates out of either dispatch
engine; the `ToolRegistry` engine (`registry.py`) converts it to an error
result carrying the tool's name and the exception's message — but not its
type — while the `ToolManager` engine (`agents.py`) converts it to an error
string carrying both the exception's type and its message. -/
theorem c5_handler_exception (t : RTool)
    (h : String → Except PyExc RegResult) (args : String) (e : PyExc)
    (env : AgentEnv) (st : AgentState) (name : String) (input : TInput)
    (ch : TInput → Except PyExc String)
    (hh : t.handler = some h) (he : h args = .error e)
    (hn₁ : name ≠ "execute_python") (hn₂ : name ≠ "update_plan")
    (hn₃ : name ≠ "record_findings") (hn₄ : name ≠ "final_answer")
    (hc : env.customTools name = some ch) (hce : ch input = .error e) :
    (t.execute args
        = .errorRes ("Error executing tool '" ++ t.name ++ "': " ++ e.msg)
      ∧ e.msg.data <:+:
          ("Error executing tool '" ++ t.name ++ "': " ++ e.msg).data)
    ∧ ((ToolManager.execute_tool env st name input).2
          = .strv (toolExcMsg name e)
      ∧ e.typeName.data <:+: (toolExcMsg name e).data
      ∧ e.msg.data <:+: (toolExcMsg name e).data) := by
  refine ⟨⟨?_, ?_⟩, ?_, ?_, ?_⟩
  · unfold RTool.execute
    rw [hh]
    dsimp only
    rw [he]
  · refine ⟨("Error executing tool '" ++ t.name ++ "': ").data, [], ?_⟩
    simp [String.data_append]
  · unfold ToolManager.execute_tool
    rw [if_neg hn₁, if_neg hn₂, if_neg hn₃, if_neg hn₄, hc]
    dsimp only
    rw [hce]
  · refine ⟨(("Error executing tool '" ++ name) ++ "': ").data,
      (": " ++ e.msg).data, ?_⟩
    simp [toolExcMsg, String.data_append]
  · refine ⟨("Error executing tool '" ++ name ++ "': " ++ e.typeName
      ++ ": ").data, [], ?_⟩
    simp [toolExcMsg, String.data_append]

/-- Witness for `c5_handler_exception` at concrete raising tools. -/
theorem c5_handler_exception_witness :
    (raisingTool.execute "args"
        = .errorRes ("Error executing tool '" ++ raisingTool.name ++ "': "
            ++ (PyExc.mk "ValueError" "boom").msg)
      ∧ (PyExc.mk "ValueError" "boom").msg.data <:+:
          ("Error executing tool '" ++ raisingTool.name ++ "': "
            ++ (PyExc.mk "ValueError" "boom").msg).data)
    ∧ ((ToolManager.execute_tool raisingEnv (initAgentState "t" []) "mytool"
          .inBad).2 = .strv (toolExcMsg "mytool" ⟨"ValueError", "boom"⟩)
      ∧ (PyExc.mk "ValueError" "boom").typeName.data <:+:
          (toolExcMsg "mytool" ⟨"ValueError", "boom"⟩).data
      ∧ (PyExc.mk "ValueError" "boom").msg.data <:+:
          (toolExcMsg "mytool" ⟨"ValueError", "boom"⟩).data) :=
  c5_handler_exception raisingTool (fun _ => .error ⟨"ValueError", "boom"⟩)
    "args" ⟨"ValueError", "boom"⟩ raisingEnv (initAgentState "t" []) "mytool"
    .inBad (fun _ => .error ⟨"ValueError", "boom"⟩) rfl rfl
    (by decide) (by decide) (by decide) (by decide) rfl rfl

/-- C8: `kill` is total (no exception escapes) and idempotent: for every
session table and id, both of two successive calls report success or that no
live process existed (`Session <id> does not exist`), and when the session
exists its `running` flag is `false` after the first call. -/
theorem c8_kill_idempotent (st : ShellState) (id : String) :
    killReportsOk id (ShellTool.shell_kill_process st id).2.1
      ∧ killReportsOk id
          (ShellTool.shell_kill_process
            (ShellTool.shell_kill_process st id).1 id).2.1
      ∧ sessionRunningCleared
          ((ShellTool.shell_kill_process st id).1.sessions id) := by
  cases hs : st.sessions id with
  | none =>
      simp [ShellTool.shell_kill_process, hs, killReportsOk,
        sessionRunningCleared]
  | some s =>
      cases hp : s.poll with
      | none =>
          simp [ShellTool.shell_kill_process, hs, hp, killReportsOk,
            sessionRunningCleared]
      | some c =>
          simp [ShellTool.shell_kill_process, hs, hp, killReportsOk,
            sessionRunningCleared]

/-- C6 evidence of the code bug: with root `/tmp/root` and the existing
directory `/tmp/rootevil` — which is outside the root — `shell_exec`
nevertheless reports success, emits a spawn event and creates a session,
because `validate_path` tests containment with a bare string prefix
(`str(abs_path).startswith(str(self.root_path))`) and the string
`/tmp/rootevil` starts with `/tmp/root`. The claim demands an error result
with no spawn and no session-table change for every `working_directory`
resolving outside the root. -/
theorem c6_path_escape_spawns :
    insideRoot escRoot escDir = false
      ∧ pyStartsWith (renderPath escDir) (renderPath escRoot) = true
      ∧ (ShellTool.shell_exec escWorld escRoot emptySessions "a" escDir
          "echo hi").2.1.status = "success"
      ∧ (ShellTool.shell_exec escWorld escRoot emptySessions "a" escDir
          "echo hi").2.2 = [SEvent.spawn 101]
      ∧ ((ShellTool.shell_exec escWorld escRoot emptySessions "a" escDir
          "echo hi").1.sessions "a").isSome = true := by
  exact ⟨by decide, by decide, by decide, by decide, by decide⟩

/-- C10: for a file inside the root whose content holds exactly one occurrence
of `old_str`, `str_replace` succeeds, and an immediate `undo_edit` succeeds
and restores the file to exactly its previous content (the per-path history
stack makes replace-then-undo a round trip). -/
theorem c10_replace_undo_roundtrip (st : EditorState)
    (path oldStr newStr content : String)
    (hroot : pyStartsWith (EditorTool.normalize_path st.root path) st.root
      = true)
    (habs : pyStartsWith (EditorTool.normalize_path st.root path) "/" = true)
    (hfile : st.files (EditorTool.normalize_path st.root path) = some content)
    (hdir : st.dirs (EditorTool.normalize_path st.root path) = false)
    (hocc : countOcc oldStr.data content.data = 1) :
    (EditorTool.str_replace st path oldStr newStr).2.status = "success"
      ∧ (EditorTool.undo_edit
          (EditorTool.str_replace st path oldStr newStr).1 path).2.status
          = "success"
      ∧ (EditorTool.undo_edit
          (EditorTool.str_replace st path oldStr newStr).1 path).1.files
          (EditorTool.normalize_path st.root path) = some content := by
  have hv₁ : EditorTool.validate_path st "str_replace"
      (EditorTool.normalize_path st.root path) = none := by
    simp [EditorTool.validate_path, hroot, habs, hfile, hdir]
  have hst : (EditorTool.str_replace st path oldStr newStr).1
      = { st with
          history := fun k =>
            if k = EditorTool.normalize_path st.root path
            then content :: st.history k else st.history k,
          files := fun k =>
            if k = EditorTool.normalize_path st.root path
            then some (String.mk
              (pyReplace oldStr.data newStr.data content.data))
            else st.files k } := by
    simp [EditorTool.str_replace, hv₁, hfile, hocc]
  refine ⟨?_, ?_, ?_⟩
  · simp [EditorTool.str_replace, hv₁, hfile, hocc]
  · rw [hst]
    have hv₂ : EditorTool.validate_path
        ({ st with
            history := fun k =>
              if k = EditorTool.normalize_path st.root path
              then content :: st.history k else st.history k,
            files := fun k =>
              if k = EditorTool.normalize_path st.root path
              then some (String.mk
                (pyReplace oldStr.data newStr.data content.data))
              else st.files k } : EditorState) "undo_edit"
        (EditorTool.normalize_path st.root path) = none := by
      simp [EditorTool.validate_path, hroot, habs, hdir]
    simp [EditorTool.undo_edit, hv₂]
  · rw [hst]
    have hv₂ : EditorTool.validate_path
        ({ st with
            history := fun k =>
              if k = EditorTool.normalize_path st.root path
              then content :: st.history k else st.history k,
            files := fun k =>
              if k = EditorTool.normalize_path st.root path
              then some (String.mk
                (pyReplace oldStr.data newStr.data content.data))
              else st.files k } : EditorState) "undo_edit"
        (EditorTool.normalize_path st.root path) = none := by
      simp [EditorTool.validate_path, hroot, habs, hdir]
    simp [EditorTool.undo_edit, hv₂]

/-- Witness for `c10_replace_undo_roundtrip`: replace `world` by `moon` in
`/r/a.txt` holding `hello world`, then undo. -/
theorem c10_replace_undo_roundtrip_witness :
    ((EditorTool.str_replace edState "/r/a.txt" "world" "moon").2.status
        = "success"
      ∧ (EditorTool.undo_edit
          (EditorTool.str_replace edState "/r/a.txt" "world" "moon").1
          "/r/a.txt").2.status = "success"
      ∧ (EditorTool.undo_edit
          (EditorTool.str_replace edState "/r/a.txt" "world" "moon").1
          "/r/a.txt").1.files
          (EditorTool.normalize_path edState.root "/r/a.txt")
          = some "hello world") :=
  c10_replace_undo_roundtrip edState "/r/a.txt" "world" "moon" "hello world"
    (by decide) (by decide) (by decide) (by decide) (by decide)

theorem StateManager.add_tool_result_flags (st : AgentState) (tid c : String)
    (ie : Bool) :
    ((StateManager.add_tool_result st tid c ie).isDone,
      (StateManager.add_tool_result st tid c ie).finalAnswer)
      = (st.isDone, st.finalAnswer) := rfl

theorem StateManager.add_assistant_message_flags (st : AgentState)
    (blocks : List CBlock) :
    ((StateManager.add_assistant_message st blocks).isDone,
      (StateManager.add_assistant_message st blocks).finalAnswer)
      = (st.isDone, st.finalAnswer) := by
  unfold StateManager.add_assistant_message
  split <;> rfl

theorem ToolManager.execute_tool_flags (env : AgentEnv) (st : AgentState)
    (name : String) (input : TInput) :
    ((ToolManager.execute_tool env st name input).1.isDone,
      (ToolManager.execute_tool env st name input).1.finalAnswer)
      = match input with
        | .inStr v =>
            if name = "final_answer" then (true, some v)
            else (st.isDone, st.finalAnswer)
        | _ => (st.isDone, st.finalAnswer) := by
  unfold ToolManager.execute_tool
  by_cases h₁ : name = "execute_python"
  · rw [if_pos h₁]
    cases input with
    | inCode code =>
        dsimp only
        unfold execute_python_impl
        dsimp only
        split <;> rfl
    | inStr v =>
        have hne : name ≠ "final_answer" := by rw [h₁]; decide
        dsimp only
        rw [if_neg hne]
    | inBad => rfl
  · rw [if_neg h₁]
    by_cases h₂ : name = "update_plan"
    · rw [if_pos h₂]
      cases input with
      | inCode code => rfl
      | inStr v =>
          have hne : name ≠ "final_answer" := by rw [h₂]; decide
          dsimp only [update_plan_impl]
          rw [if_neg hne]
      | inBad => rfl
    · rw [if_neg h₂]
      by_cases h₃ : name = "record_findings"
      · rw [if_pos h₃]
        cases input with
        | inCode code => rfl
        | inStr v =>
            have hne : name ≠ "final_answer" := by rw [h₃]; decide
            dsimp only [record_findings_impl]
            rw [if_neg hne]
        | inBad => rfl
      · rw [if_neg h₃]
        by_cases h₄ : name = "final_answer"
        · rw [if_pos h₄]
          cases input with
          | inCode code => rfl
          | inStr v =>
              dsimp only [final_answer_impl, StateManager.set_done]
              rw [if_pos h₄]
          | inBad => rfl
        · rw [if_neg h₄]
          cases input with
          | inCode code =>
              dsimp only
              cases env.customTools name with
              | none => rfl
              | some f =>
                  dsimp only
                  cases f (.inCode code) with
                  | ok s => rfl
                  | error e => rfl
          | inStr v =>
              dsimp only
              rw [if_neg h₄]
              cases env.customTools name with
              | none => rfl
              | some f =>
                  dsimp only
                  cases f (.inStr v) with
                  | ok s => rfl
                  | error e => rfl
          | inBad =>
              dsimp only
              cases env.customTools name with
              | none => rfl
              | some f =>
                  dsimp only
                  cases f .inBad with
                  | ok s => rfl
                  | error e => rfl

theorem Agent.processBlock_flags (env : AgentEnv) (st : AgentState)
    (b : CBlock) :
    ((Agent.processBlock env st b).isDone,
      (Agent.processBlock env st b).finalAnswer)
      = match blockFinalAnswer b with
        | some v => (true, some v)
        | none => (st.isDone, st.finalAnswer) := by
  cases b with
  | text s => rfl
  | toolResult tid c ie => rfl
  | toolUse tid name input =>
      have hexec := ToolManager.execute_tool_flags env st name input
      unfold Agent.processBlock blockFinalAnswer
      dsimp only
      rw [StateManager.add_tool_result_flags, hexec]
      cases input with
      | inCode code => rfl
      | inStr v =>
          dsimp only
          by_cases hn : name = "final_answer"
          · rw [if_pos hn, if_pos hn]
          · rw [if_neg hn, if_neg hn]
      | inBad => rfl

theorem Agent.processBlocks_flags (env : AgentEnv) :
    ∀ (blocks : List CBlock) (st : AgentState),
      ((Agent.processBlocks env st blocks).isDone,
        (Agent.processBlocks env st blocks).finalAnswer)
        = match lastFinalAnswer blocks with
          | some v => (true, some v)
          | none => (st.isDone, st.finalAnswer)
  | [], st => rfl
  | b :: bs, st => by
      have hb := Agent.processBlock_flags env st b
      have ih := Agent.processBlocks_flags env bs (Agent.processBlock env st b)
      show ((Agent.processBlocks env (Agent.processBlock env st b) bs).isDone,
        (Agent.processBlocks env (Agent.processBlock env st b) bs).finalAnswer)
        = _
      rw [ih]
      simp only [lastFinalAnswer]
      cases hl : lastFinalAnswer bs with
      | some v => rfl
      | none =>
          dsimp only
          exact hb

theorem Agent.runLoop_of_done (env : AgentEnv) (oracle : LLMOracle)
    (fuel : Nat) (st : AgentState) (h : st.isDone = true) :
    Agent.runLoop env oracle fuel st = (st, 0) := by
  cases fuel with
  | zero => rfl
  | succ n => simp [Agent.runLoop, h]

/-- C1 (amended): whenever the provider's response in an iteration contains a
`final_answer` invocation, the loop's termination flag is set and the loop
issues no further provider calls after that iteration — exactly one provider
call happens from that iteration on — and the recorded result is the value of
the **last** `final_answer` invocation of that iteration (all blocks of the
response are processed even after the flag flips, so a later invocation in the
same turn overwrites an earlier one). -/
theorem c1_final_answer_terminal (env : AgentEnv) (oracle : LLMOracle)
    (fuel : Nat) (st : AgentState) (resp : LLMResponse) (blocks : List CBlock)
    (v : String)
    (h0 : st.isDone = false)
    (h1 : oracle st.history = some resp)
    (h2 : resp.content = some blocks)
    (h3 : lastFinalAnswer blocks = some v) :
    (Agent.runLoop env oracle (fuel + 1) st).1.isDone = true
      ∧ (Agent.runLoop env oracle (fuel + 1) st).1.finalAnswer = some v
      ∧ (Agent.runLoop env oracle (fuel + 1) st).2 = 1 := by
  have hflags := Agent.processBlocks_flags env blocks
    (StateManager.add_assistant_message st blocks)
  rw [h3] at hflags
  have hd : (Agent.processBlocks env
      (StateManager.add_assistant_message st blocks) blocks).isDone = true :=
    congrArg Prod.fst hflags
  have hf : (Agent.processBlocks env
      (StateManager.add_assistant_message st blocks) blocks).finalAnswer
      = some v :=
    congrArg Prod.snd hflags
  have hrest := Agent.runLoop_of_done env oracle fuel
    (Agent.processBlocks env (StateManager.add_assistant_message st blocks)
      blocks) hd
  simp only [Agent.runLoop, h0, h1, h2]
  rw [hrest]
  exact ⟨hd, hf, rfl⟩

/-- C1 counterexample: one turn holding two `final_answer` invocations, first
with value `a`, then with value `b`. The loop processes every block of the
response — also after the termination flag is set — so the second invocation
overwrites the first: the run ends `DONE` after exactly one provider call, yet
the recorded result is `b`, not the value `a` the tool was invoked with. -/
theorem c1_counterexample :
    cexOracle (initAgentState "task" []).history
        = some ⟨some [.toolUse "t1" "final_answer" (.inStr "a"),
                      .toolUse "t2" "final_answer" (.inStr "b")], "tool_use"⟩
      ∧ (Agent.run emptyEnv cexOracle "task" []).1.isDone = true
      ∧ (Agent.run emptyEnv cexOracle "task" []).1.finalAnswer ≠ some "a"
      ∧ (Agent.run emptyEnv cexOracle "task" []).1.finalAnswer = some "b"
      ∧ (Agent.run emptyEnv cexOracle "task" []).2 = 1 :=
  ⟨rfl, rfl, by decide, rfl, rfl⟩

/-- Witness for `c1_final_answer_terminal`: a single `final_answer("42")`
invocation in the first turn. -/
theorem c1_final_answer_terminal_witness :
    ((initAgentState "t" []).isDone = false)
      ∧ (lastFinalAnswer [.toolUse "t1" "final_answer" (.inStr "42")]
          = some "42")
      ∧ ((Agent.runLoop emptyEnv witOracle 15 (initAgentState "t" [])).1.isDone
            = true
        ∧ (Agent.runLoop emptyEnv witOracle 15
            (initAgentState "t" [])).1.finalAnswer = some "42"
        ∧ (Agent.runLoop emptyEnv witOracle 15 (initAgentState "t" [])).2
            = 1) :=
  ⟨rfl, rfl,
    c1_final_answer_terminal emptyEnv witOracle 14 (initAgentState "t" [])
      ⟨some [.toolUse "t1" "final_answer" (.inStr "42")], "tool_use"⟩
      [.toolUse "t1" "final_answer" (.inStr "42")] "42" rfl rfl rfl rfl⟩

theorem processLoopGo_calls_le (oracle : GenOracle) (extract : Extractor)
    (reg : ToolRegistry) (sysPrompt sumPrompt : String) :
    ∀ (fuel : Nat) (finalTurn toolUsed : Bool) (conv : List PMsg),
      (processLoopGo oracle extract reg sysPrompt sumPrompt fuel finalTurn
        toolUsed conv).2.2 ≤ fuel := by
  intro fuel
  induction fuel with
  | zero =>
      intro ft tu conv
      exact Nat.le_refl 0
  | succ n ih =>
      intro ft tu conv
      unfold processLoopGo
      by_cases hft : ft = true
      · simp only [if_pos hft]
        cases oracle (renderHistory conv) sumPrompt with
        | genError m => exact Nat.succ_le_succ (Nat.zero_le n)
        | genOk resp => exact Nat.succ_le_succ (Nat.zero_le n)
      · simp only [if_neg hft]
        cases oracle (renderHistory conv) sysPrompt with
        | genError m => exact Nat.succ_le_succ (Nat.zero_le n)
        | genOk resp =>
            dsimp only
            cases extract resp with
            | nil =>
                by_cases htu : tu = true
                · simp only [if_pos htu]
                  exact Nat.succ_le_succ (ih true true _)
                · simp only [if_neg htu]
                  exact Nat.succ_le_succ (Nat.zero_le n)
            | cons c cs =>
                dsimp only
                exact Nat.succ_le_succ (ih ft true _)

theorem runLoop_calls_le (env : AgentEnv) (oracle : LLMOracle) :
    ∀ (fuel : Nat) (st : AgentState),
      (Agent.runLoop env oracle fuel st).2 ≤ fuel := by
  intro fuel
  induction fuel with
  | zero =>
      intro st
      exact Nat.le_refl 0
  | succ n ih =>
      intro st
      unfold Agent.runLoop
      by_cases h : st.isDone = true
      · rw [if_pos h]
        exact Nat.zero_le (n + 1)
      · rw [if_neg h]
        cases oracle st.history with
        | none => exact Nat.succ_le_succ (Nat.zero_le n)
        | some resp =>
            dsimp only
            cases resp.content with
            | none => exact Nat.succ_le_succ (Nat.zero_le n)
            | some blocks =>
                dsimp only
                exact Nat.succ_le_succ (ih _)

/-- C3: both orchestration loops terminate (they are total functions) within
the claimed provider-call budget. `process_loop` (`agent/agent.py`) makes at
most `max_tool_turns + 1` provider calls, where `max_tool_turns =
max_steps - 1` is the loop's iteration ceiling and the `+1` is the forced
final summary call issued when the ceiling is reached without a summary turn.
`Agent.run` (`agents.py`) makes at most one provider call per remaining
iteration (its ceiling is the hard-coded `max_iterations = 15`), hence also at
most `max_iterations + 1`. -/
theorem c3_provider_call_bound :
    (∀ (oracle : GenOracle) (extract : Extractor) (reg : ToolRegistry)
        (sysPrompt sumPrompt inputText : String) (maxSteps : Nat),
        (Agent.process_loop oracle extract reg sysPrompt sumPrompt maxSteps
          inputText).2 ≤ (maxSteps - 1) + 1)
      ∧ (∀ (env : AgentEnv) (oracle : LLMOracle) (fuel : Nat)
          (st : AgentState), (Agent.runLoop env oracle fuel st).2 ≤ fuel) := by
  constructor
  · intro oracle extract reg sysPrompt sumPrompt inputText maxSteps
    have hgo := processLoopGo_calls_le oracle extract reg sysPrompt sumPrompt
      (maxSteps - 1) false false [PMsg.user inputText]
    unfold Agent.process_loop
    dsimp only
    cases hexit : (processLoopGo oracle extract reg sysPrompt sumPrompt
        (maxSteps - 1) false false [PMsg.user inputText]).2.1 with
    | errored m =>
        dsimp only
        omega
    | finished =>
        dsimp only
        omega
    | maxTurns flag =>
        cases flag with
        | false =>
            dsimp only
            cases oracle (renderHistory (processLoopGo oracle extract reg
                sysPrompt sumPrompt (maxSteps - 1) false false
                [PMsg.user inputText]).1) sumPrompt with
            | genError m =>
                dsimp only
                omega
            | genOk resp =>
                dsimp only
                omega
        | true =>
            dsimp only
            omega
  · intro env oracle fuel st
    exact runLoop_calls_le env oracle fuel st

theorem shellWaitGo_spec (p : WProc) (timeoutTicks : Nat)
    (hl : ∀ e ∈ p.lines, e.1 ≤ p.exitAt) :
    ∀ (fuel now idx : Nat) (acc : List String),
      p.exitAt ≤ now + fuel →
      ∃ out, shellWaitGo p timeoutTicks fuel now idx acc = some out
        ∧ (out.status = "timeout" ∨ out.status = "success")
        ∧ (out.status = "timeout" →
            timeoutTicks < out.endTime ∧ out.endTime ≤ p.exitAt)
        ∧ (out.status = "success" →
            out.exitCode = some p.exitCode ∧ p.exitAt ≤ out.endTime) := by
  intro fuel
  induction fuel with
  | zero =>
      intro now idx acc hle
      have hp : p.pollAt now = some p.exitCode := by
        unfold WProc.pollAt
        rw [if_pos (by omega)]
      unfold shellWaitGo
      rw [hp]
      refine ⟨_, rfl, Or.inr rfl, ?_, ?_⟩
      · intro h
        simp at h
      · intro _
        refine ⟨rfl, ?_⟩
        show p.exitAt ≤ now
        omega
  | succ n ih =>
      intro now idx acc hle
      unfold shellWaitGo
      cases hp : p.pollAt now with
      | some c =>
          have hc : c = p.exitCode ∧ p.exitAt ≤ now := by
            unfold WProc.pollAt at hp
            by_cases hx : p.exitAt ≤ now
            · rw [if_pos hx] at hp
              exact ⟨(Option.some.inj hp).symm, hx⟩
            · rw [if_neg hx] at hp
              cases hp
          dsimp only
          refine ⟨_, rfl, Or.inr rfl, ?_, ?_⟩
          · intro h
            simp at h
          · intro _
            exact ⟨by rw [hc.1], hc.2⟩
      | none =>
          have hnx : now < p.exitAt := by
            unfold WProc.pollAt at hp
            by_cases hx : p.exitAt ≤ now
            · rw [if_pos hx] at hp
              cases hp
            · rw [if_neg hx] at hp
              omega
          dsimp only
          unfold WProc.readlineAt
          cases hr : p.lines.get? idx with
          | some tl =>
              have htl : tl.1 ≤ p.exitAt := hl tl (List.get?_mem hr)
              dsimp only
              by_cases ht : timeoutTicks < max now tl.1
              · rw [if_pos ht]
                refine ⟨_, rfl, Or.inl rfl, ?_, ?_⟩
                · intro _
                  exact ⟨ht, Nat.max_le.mpr ⟨Nat.le_of_lt hnx, htl⟩⟩
                · intro h
                  simp at h
              · rw [if_neg ht]
                apply ih (max now tl.1 + 1) (idx + 1) (acc ++ [tl.2])
                have := Nat.le_max_left now tl.1
                omega
          | none =>
              dsimp only
              by_cases ht : timeoutTicks < max now p.exitAt
              · rw [if_pos ht]
                refine ⟨_, rfl, Or.inl rfl, ?_, ?_⟩
                · intro _
                  exact ⟨ht, Nat.max_le.mpr ⟨Nat.le_of_lt hnx, Nat.le_refl _⟩⟩
                · intro h
                  simp at h
              · rw [if_neg ht]
                apply ih (max now p.exitAt + 1) idx acc
                have := Nat.le_max_right now p.exitAt
                omega

/-- C7 (amended): `shell_wait` on a live session's process never kills it
(the embedded wait only reads `poll`/`readline` — no terminate/kill call
exists in its source); with enough fuel it always returns, reporting `timeout`
only when the deadline elapsed while the process was still alive
(`poll` at the deadline is `None`), and otherwise `success` with the process's
exit code. However, because the wait loop blocks in `readline`, the process
may already have exited by the tick at which a `timeout` is reported
(`endTime ≤ exitAt` is the strongest guarantee, not `endTime < exitAt`). -/
theorem c7_wait_semantics (p : WProc) (timeoutTicks fuel : Nat)
    (hl : ∀ e ∈ p.lines, e.1 ≤ p.exitAt) (hf : p.exitAt ≤ fuel) :
    ∃ out, ShellTool.shell_wait p timeoutTicks fuel = some out
      ∧ (out.status = "timeout" ∨ out.status = "success")
      ∧ (out.status = "timeout" →
          timeoutTicks < out.endTime ∧ out.endTime ≤ p.exitAt
            ∧ p.pollAt timeoutTicks = none)
      ∧ (out.status = "success" →
          out.exitCode = some p.exitCode ∧ p.exitAt ≤ out.endTime) := by
  obtain ⟨out, heq, hst, hto, hsu⟩ :=
    shellWaitGo_spec p timeoutTicks hl fuel 0 0 [] (by omega)
  refine ⟨out, heq, hst, ?_, hsu⟩
  intro h
  obtain ⟨h₁, h₂⟩ := hto h
  refine ⟨h₁, h₂, ?_⟩
  unfold WProc.pollAt
  rw [if_neg (by omega)]

/-- C7 counterexample: `wait(id, seconds=0)` on the silent five-second sleeper
(50 ticks, no output) does report `status=timeout` — but only after blocking
in `readline` until the process's stdout reaches EOF at process exit: the call
returns at tick 50, at which point the process has already exited (`poll`
yields its exit code), refuting "reports `status=timeout` with the process
still running". -/
theorem c7_counterexample :
    ShellTool.shell_wait sleepFive 0 60 = some ⟨"timeout", none, [], 50⟩
      ∧ WProc.pollAt sleepFive 50 = some 0 := by
  exact ⟨rfl, rfl⟩

/-- Witness for `c7_wait_semantics` at a concrete process trace. -/
theorem c7_wait_semantics_witness :
    (∀ e ∈ witProc.lines, e.1 ≤ witProc.exitAt) ∧ witProc.exitAt ≤ 40
      ∧ (∃ out, ShellTool.shell_wait witProc 100 40 = some out
        ∧ (out.status = "timeout" ∨ out.status = "success")
        ∧ (out.status = "timeout" →
            100 < out.endTime ∧ out.endTime ≤ witProc.exitAt
              ∧ witProc.pollAt 100 = none)
        ∧ (out.status = "success" →
            out.exitCode = some witProc.exitCode
              ∧ witProc.exitAt ≤ out.endTime)) :=
  ⟨by decide, by decide,
    c7_wait_semantics witProc 100 40 (by decide) (by decide)⟩
